import Mathlib

/-!
Verification of `monitor-stddev.py` from the `azure-scripts` repository.

This file gives a shallow embedding of the data model and the operations of
the website-monitoring script: the timeline compaction `trim_data`, the
window statistics and the health classifier of `monitor_website`, the probe
outcome handling, the sample-buffer maintenance `cleanup_old_data`, and the
health-history renderer `create_graphical_representation`.

Modelling conventions:
* Python floats and `datetime` differences (`total_seconds()`) are embedded
  as exact rationals `ℚ`; the literal `59.99` becomes `5999 / 100`.
* A timeline entry (a JSON dict) is embedded as an `Entry` whose `ts` field
  is `some t` when the `"timestamp"` value parses as an ISO datetime
  (`t` in seconds) and `none` when the key is missing or unparseable, whose
  `healthy` field is `some h` when the `"healthy"` value converts to `int`
  and `none` otherwise, and whose `payload` field stands for the remaining
  JSON payload, so that distinct dicts stay distinguishable.
* Python's stable `sorted` with the timestamp key is embedded as
  `List.insertionSort`, which is also stable for the `tsLe` order.
* Exceptions are embedded by explicit branching: the `sorted` call inside
  `trim_data` raises on the first entry whose timestamp is missing or
  unparseable, which the surrounding handler turns into returning the
  input unchanged; this is the `Entry.ts.isSome` guard below.
-/

namespace MonitorStddev

/-- Constant `RESULTS_COUNT_MINUTES = 60 * 24 * 3` of `monitor-stddev.py`:
the retention count of the timeline (4320). -/
def RESULTS_COUNT_MINUTES : Nat := 60 * 24 * 3

/-- Constant `SAMPLE_SIZE_SECONDS = 240` of `monitor-stddev.py`: the
evaluation-window size. -/
def SAMPLE_SIZE_SECONDS : Nat := 240

/-- Constant `STATUS_UNHEALTHY = 0`. -/
def STATUS_UNHEALTHY : Nat := 0

/-- Constant `STATUS_HEALTHY = 1`. -/
def STATUS_HEALTHY : Nat := 1

/-- Constant `MAX_HISTORY_SIZE = SAMPLE_SIZE_SECONDS * 3` (720): hard cap of
the four parallel sample buffers. -/
def MAX_HISTORY_SIZE : Nat := SAMPLE_SIZE_SECONDS * 3

/-- A timeline entry of the historical data: the parse result of its
`"timestamp"` value (seconds, `none` when missing or unparseable), the
`int` conversion of its `"healthy"` value (`none` when missing or not
convertible), and an abstract payload standing for the rest of the dict. -/
structure Entry where
  ts : Option ℚ
  healthy : Option ℤ
  payload : Nat
  deriving DecidableEq, Repr

/-- The timestamp key used for sorting; entries in the sorting branch of
`trim_data` always have `ts = some t`, where this returns `t`. -/
def tsv (e : Entry) : ℚ := e.ts.getD 0

/-- The sort order of `sorted(data, key=lambda x: datetime.fromisoformat(...))`. -/
def tsLe (a b : Entry) : Prop := tsv a ≤ tsv b

instance : DecidableRel tsLe := fun a b => inferInstanceAs (Decidable (tsv a ≤ tsv b))

instance : IsTotal Entry tsLe := ⟨fun a b => le_total (tsv a) (tsv b)⟩

instance : IsTrans Entry tsLe := ⟨fun _ _ _ h1 h2 => le_trans h1 h2⟩

/-- The literal `59.99` seconds of `trim_data`, as an exact rational. -/
def DUP_GAP_SECONDS : ℚ := 5999 / 100

/-- The keep test of the `trim_data` loop:
`not last_timestamp or (current_timestamp - last_timestamp).total_seconds() >= 59.99`. -/
def keepOk : Option ℚ → ℚ → Bool
  | none, _ => true
  | some l, t => decide (DUP_GAP_SECONDS ≤ t - l)

/-- The deduplication loop of `trim_data`: walks the sorted entries carrying
`last_timestamp`; an entry is appended when `keepOk` holds, and
`last_timestamp` is updated to the current entry's timestamp in either case.
An entry whose timestamp does not parse is skipped with `last_timestamp`
unchanged (the inner `except` clause). -/
def dedupLoop : Option ℚ → List Entry → List Entry
  | _, [] => []
  | last, e :: rest =>
    match e.ts with
    | none => dedupLoop last rest
    | some t =>
      if keepOk last t then e :: dedupLoop (some t) rest
      else dedupLoop (some t) rest

/-- `trim_data` of `monitor-stddev.py`: returns `[]` on empty input; sorts by
timestamp, deduplicates with `dedupLoop`, and keeps the last
`RESULTS_COUNT_MINUTES` entries. When any entry's timestamp is missing or
unparseable, the `sorted` key function raises, the handler catches, and the
input is returned unchanged. -/
def trim_data (data : List Entry) : List Entry :=
  if data.isEmpty then []
  else if data.all (fun e => e.ts.isSome) then
    let data_sorted := List.insertionSort tsLe data
    let filtered_data := dedupLoop none data_sorted
    if RESULTS_COUNT_MINUTES < filtered_data.length then
      filtered_data.drop (filtered_data.length - RESULTS_COUNT_MINUTES)
    else filtered_data
  else data

/-- The gap invariant between two consecutive timeline entries: at least
`59.99` seconds apart (on the parsed timestamps). -/
def entryGapOk (a b : Entry) : Prop := DUP_GAP_SECONDS ≤ tsv b - tsv a

instance : DecidableRel entryGapOk :=
  fun a b => inferInstanceAs (Decidable (DUP_GAP_SECONDS ≤ tsv b - tsv a))

/-- Scenario entry at `t = 0` s. -/
def entry0 : Entry := ⟨some 0, none, 0⟩

/-- Scenario entry at `t = 30` s. -/
def entry30 : Entry := ⟨some 30, none, 1⟩

/-- Scenario entry at `t = 65` s. -/
def entry65 : Entry := ⟨some 65, none, 2⟩

/-- Arithmetic mean of `statistics.mean` (0 on the empty list, matching the
guarded uses in the source, which only call it on nonempty lists). -/
def mean (xs : List ℚ) : ℚ := xs.sum / xs.length

/-- Sum of squared deviations from the mean, the common numerator of the
sample and the population variance. -/
def sqDevSum (xs : List ℚ) : ℚ := (xs.map (fun x => (x - mean xs) ^ 2)).sum

/-- Square of `statistics.stdev xs`: the sample variance, with Bessel's
`n - 1` denominator. -/
def stdevSq (xs : List ℚ) : ℚ := sqDevSum xs / ((xs.length : ℚ) - 1)

/-- The standard-deviation statistic that `monitor_website` reports
(`std_dev_eff` and `std_dev_adj` are both computed this way):
`stdev(valid_latencies) if len(valid_latencies) > 1 else 0.0`. -/
noncomputable def reportedStdDev (valid_latencies : List ℚ) : ℝ :=
  if 1 < valid_latencies.length then Real.sqrt ((stdevSq valid_latencies : ℚ) : ℝ) else 0

/-- Modelled from the spec's words for comparison: the population standard
deviation of the latencies in the window (denominator `n`). -/
noncomputable def popStdDevSpec (xs : List ℚ) : ℝ :=
  Real.sqrt
    (((xs.map (fun x : ℚ => ((x : ℝ) - ((xs.sum : ℚ) : ℝ) / (xs.length : ℝ)) ^ 2)).sum) /
      (xs.length : ℝ))

/-- Modelled from the spec's words for comparison: the sample standard
deviation of the latencies in the window (denominator `n - 1`), defined to be
exactly `0` when the window holds fewer than two valid samples. -/
noncomputable def sampleStdDevSpec (xs : List ℚ) : ℝ :=
  if xs.length < 2 then 0
  else
    Real.sqrt
      (((xs.map (fun x : ℚ => ((x : ℝ) - ((xs.sum : ℚ) : ℝ) / (xs.length : ℝ)) ^ 2)).sum) /
        ((xs.length : ℝ) - 1))

/-- The health classifier of `monitor_website`: starts from
`STATUS_UNHEALTHY` and switches to `STATUS_HEALTHY` exactly when all five
inclusive comparisons hold. -/
def health_status (avg_eff avg_adj error_rate std_dev_eff std_dev_adj
    latency_threshold error_rate_threshold deviation_threshold : ℚ) : Nat :=
  if avg_eff ≤ latency_threshold ∧ avg_adj ≤ latency_threshold ∧
      error_rate ≤ error_rate_threshold ∧ std_dev_eff ≤ deviation_threshold ∧
      std_dev_adj ≤ deviation_threshold then
    STATUS_HEALTHY
  else STATUS_UNHEALTHY

/-- Outcome of one probe attempt: either an HTTP response with a status code
was obtained, or a transport failure (DNS/TLS/connect/timeout exception)
occurred inside the request call. -/
inductive ProbeOutcome where
  | response (status_code : ℤ)
  | failure
  deriving DecidableEq, Repr

/-- The per-probe record that `monitor_website` appends to the buffers:
`current_probe_error`, `current_probe_effective_latency`,
`current_probe_adjusted_latency`, `current_probe_response_status_code`. -/
structure ProbeSample where
  error : Bool
  effective_latency : ℚ
  adjusted_latency : ℚ
  status_code : Option ℤ
  deriving DecidableEq, Repr

/-- The probe-outcome handling of `monitor_website`: `elapsed` is the
measured wall-clock duration `probe_end_time - start_time` of the attempt.
On a response with code 200 the adjusted latency equals the effective one
and no error is flagged; on any other code the adjusted latency is the
configured `request_timeout` and an error is flagged; on a transport
failure the status code stays `None`, an error is flagged, and the adjusted
latency is `request_timeout`. -/
def probeResult (o : ProbeOutcome) (elapsed request_timeout : ℚ) : ProbeSample :=
  match o with
  | .response c =>
    if c = 200 then ⟨false, elapsed, elapsed, some c⟩
    else ⟨true, elapsed, request_timeout, some c⟩
  | .failure => ⟨true, elapsed, request_timeout, none⟩

/-- `cleanup_old_data` of `monitor-stddev.py`:
`if len(data_list) > max_size: del data_list[: len(data_list) - max_size]`,
i.e. keep only the `max_size` most recent elements. -/
def cleanup_old_data {α : Type} (data_list : List α) (max_size : Nat) : List α :=
  if max_size < data_list.length then data_list.drop (data_list.length - max_size)
  else data_list

/-- The four parallel sample buffers of `monitor_website`. -/
structure Buffers where
  errors : List Bool
  effective_latencies : List ℚ
  adjusted_latencies : List ℚ
  response_status_codes : List (Option ℤ)
  deriving DecidableEq, Repr

/-- One tick's append-and-trim step of `monitor_website`: each buffer is
extended with `probe_interval` copies of the probe's value and then trimmed
with `cleanup_old_data` to `MAX_HISTORY_SIZE`. -/
def appendAndTrim (b : Buffers) (s : ProbeSample) (probe_interval : Nat) : Buffers where
  errors := cleanup_old_data (b.errors ++ List.replicate probe_interval s.error) MAX_HISTORY_SIZE
  effective_latencies :=
    cleanup_old_data (b.effective_latencies ++ List.replicate probe_interval s.effective_latency)
      MAX_HISTORY_SIZE
  adjusted_latencies :=
    cleanup_old_data (b.adjusted_latencies ++ List.replicate probe_interval s.adjusted_latency)
      MAX_HISTORY_SIZE
  response_status_codes :=
    cleanup_old_data (b.response_status_codes ++ List.replicate probe_interval s.status_code)
      MAX_HISTORY_SIZE

/-- Bitmap width of `create_graphical_representation`:
`width = RESULTS_COUNT_MINUTES`. -/
def WIDTH : Nat := RESULTS_COUNT_MINUTES

/-- Bitmap height of `create_graphical_representation`: `height = 200`. -/
def HEIGHT : Nat := 200

/-- Palette colour of one entry in the plotting loop: palette index 1
(green) when `int(item["healthy"]) == STATUS_HEALTHY`, index 2 (red) when it
equals `STATUS_UNHEALTHY`, and the gray background index 0 when the field is
missing, not convertible to `int`, or any other value. -/
def entryColor (item : Entry) : Nat :=
  match item.healthy with
  | some h => if h = (STATUS_HEALTHY : ℤ) then 1 else if h = (STATUS_UNHEALTHY : ℤ) then 2 else 0
  | none => 0

/-- Colour of column `x` after the health-plotting loop of
`create_graphical_representation`: the loop enumerates `reversed(data)`,
breaks at `i >= width`, and paints the whole column `width - i - 1` with the
entry's colour; unpainted columns keep the gray background. -/
def plotColumnColor (data_sorted : List Entry) (x : Nat) : Nat :=
  if x < WIDTH then
    match (data_sorted.reverse).get? (WIDTH - 1 - x) with
    | some item => entryColor item
    | none => 0
  else 0

/-- Calendar date (day number) of a timestamp given in seconds, embedding
`datetime.fromisoformat(...).date()`. -/
def dateOf (t : ℚ) : ℤ := ⌊t / 86400⌋

/-- Helper of `dateTicks`: walks the entries with their index carrying
`previous_date`, recording the in-range x positions where the date changes;
entries whose timestamp does not parse are skipped with `previous_date`
unchanged. -/
def dateTicksAux (total : Nat) : Option ℤ → Nat → List Entry → List ℤ
  | _, _, [] => []
  | prev, i, e :: rest =>
    match e.ts with
    | none => dateTicksAux total prev (i + 1) rest
    | some t =>
      let d := dateOf t
      let restTicks := dateTicksAux total (some d) (i + 1) rest
      match prev with
      | some p =>
        if d ≠ p ∧ 0 ≤ (i : ℤ) - total + WIDTH ∧ (i : ℤ) - total + WIDTH < WIDTH then
          ((i : ℤ) - total + WIDTH) :: restTicks
        else restTicks
      | none => restTicks

/-- The x positions of the date-marker ticks of
`create_graphical_representation` (the black `y < 20` tick columns drawn
when the calendar date changes between consecutive parseable entries). -/
def dateTicks (data_sorted : List Entry) : List ℤ :=
  dateTicksAux data_sorted.length none 0 data_sorted

/-- A rendered bitmap: its dimensions and the palette index of every pixel. -/
structure RenderedImage where
  width : Nat
  height : Nat
  pix : Nat → Nat → Nat

/-- `create_graphical_representation` of `monitor-stddev.py`: a
`width x height` palette bitmap, gray background, health columns from the
plotting loop, and black date-marker ticks over the top 20 rows. The
date-label text drawn with `draw.text` depends on PIL font rasterization and
is abstracted away; it only annotates the marker area and no claim concerns
it. The function is total: the Python `try` body cannot fail in this
embedding, and the `except` branch is modelled by `placeholderImage`. -/
def create_graphical_representation (data_sorted : List Entry) : RenderedImage where
  width := WIDTH
  height := HEIGHT
  pix := fun x y =>
    if ((x : ℤ) ∈ dateTicks data_sorted) ∧ y < 20 then 3
    else plotColumnColor data_sorted x

/-- The `except` branch of `create_graphical_representation`: a blank gray
image of the same `width x height` dimensions
(`Image.new("RGB", (width, height), color="gray")`). -/
def placeholderImage : RenderedImage where
  width := WIDTH
  height := HEIGHT
  pix := fun _ _ => 0

/-! Helper lemmas about `trim_data` and its deduplication loop. -/

lemma trim_data_nil : trim_data [] = [] := rfl

lemma trim_data_of_invalid (data : List Entry) (hne : data ≠ [])
    (h : data.all (fun e => e.ts.isSome) = false) : trim_data data = data := by
  unfold trim_data
  rw [if_neg (by simpa [List.isEmpty_iff] using hne), h]
  simp

lemma trim_data_of_valid (data : List Entry)
    (hall : data.all (fun e => e.ts.isSome) = true) :
    trim_data data =
      if RESULTS_COUNT_MINUTES < (dedupLoop none (List.insertionSort tsLe data)).length then
        (dedupLoop none (List.insertionSort tsLe data)).drop
          ((dedupLoop none (List.insertionSort tsLe data)).length - RESULTS_COUNT_MINUTES)
      else dedupLoop none (List.insertionSort tsLe data) := by
  cases data with
  | nil => simp [trim_data, dedupLoop]
  | cons e rest => rw [trim_data, if_neg (by simp), if_pos hall]

lemma dedupLoop_cons_none (last : Option ℚ) (e : Entry) (rest : List Entry)
    (h : e.ts = none) : dedupLoop last (e :: rest) = dedupLoop last rest := by
  rw [dedupLoop, h]

lemma dedupLoop_cons_some (last : Option ℚ) (e : Entry) (rest : List Entry) (t : ℚ)
    (h : e.ts = some t) :
    dedupLoop last (e :: rest) =
      if keepOk last t then e :: dedupLoop (some t) rest
      else dedupLoop (some t) rest := by
  rw [dedupLoop, h]

lemma dedupLoop_sublist : ∀ (last : Option ℚ) (xs : List Entry),
    List.Sublist (dedupLoop last xs) xs
  | _, [] => List.Sublist.refl []
  | last, e :: rest => by
    cases hts : e.ts with
    | none =>
      rw [dedupLoop_cons_none last e rest hts]
      exact (dedupLoop_sublist last rest).cons e
    | some t =>
      rw [dedupLoop_cons_some last e rest t hts]
      by_cases hk : keepOk last t
      · rw [if_pos hk]
        exact (dedupLoop_sublist (some t) rest).cons₂ e
      · rw [if_neg hk]
        exact (dedupLoop_sublist (some t) rest).cons e

lemma tsv_eq_of_ts (e : Entry) (t : ℚ) (h : e.ts = some t) : tsv e = t := by
  simp [tsv, h]

lemma dedupLoop_head_ge : ∀ (xs : List Entry) (m : ℚ),
    List.Pairwise tsLe xs → (∀ e ∈ xs, m ≤ tsv e) →
    ∀ e' ∈ (dedupLoop (some m) xs).head?, m + DUP_GAP_SECONDS ≤ tsv e'
  | [], _, _, _ => by simp [dedupLoop]
  | e :: rest, m, hp, hm => by
    cases hts : e.ts with
    | none =>
      rw [dedupLoop_cons_none _ e rest hts]
      exact dedupLoop_head_ge rest m hp.of_cons (fun x hx => hm x (List.mem_cons_of_mem e hx))
    | some t =>
      rw [dedupLoop_cons_some _ e rest t hts]
      by_cases hk : keepOk (some m) t
      · rw [if_pos hk]
        intro e' he'
        simp only [List.head?_cons, Option.mem_def, Option.some.injEq] at he'
        subst he'
        have hgap : DUP_GAP_SECONDS ≤ t - m := by
          simpa [keepOk] using hk
        rw [tsv_eq_of_ts e t hts]
        linarith
      · rw [if_neg hk]
        have hmt : m ≤ t := by
          have := hm e (List.mem_cons_self e rest)
          rwa [tsv_eq_of_ts e t hts] at this
        have hrest : ∀ x ∈ rest, t ≤ tsv x := by
          intro x hx
          have := List.rel_of_pairwise_cons hp hx
          rwa [tsLe, tsv_eq_of_ts e t hts] at this
        intro e' he'
        have := dedupLoop_head_ge rest t hp.of_cons hrest e' he'
        linarith

lemma dedupLoop_chain : ∀ (xs : List Entry) (last : Option ℚ),
    List.Pairwise tsLe xs → List.Chain' entryGapOk (dedupLoop last xs)
  | [], _, _ => by simp [dedupLoop]
  | e :: rest, last, hp => by
    cases hts : e.ts with
    | none =>
      rw [dedupLoop_cons_none last e rest hts]
      exact dedupLoop_chain rest last hp.of_cons
    | some t =>
      rw [dedupLoop_cons_some last e rest t hts]
      have hrest : ∀ x ∈ rest, t ≤ tsv x := by
        intro x hx
        have := List.rel_of_pairwise_cons hp hx
        rwa [tsLe, tsv_eq_of_ts e t hts] at this
      by_cases hk : keepOk last t
      · rw [if_pos hk]
        rw [List.chain'_cons']
        refine ⟨?_, dedupLoop_chain rest (some t) hp.of_cons⟩
        intro y hy
        have := dedupLoop_head_ge rest t hp.of_cons hrest y hy
        rw [entryGapOk, tsv_eq_of_ts e t hts]
        linarith
      · rw [if_neg hk]
        exact dedupLoop_chain rest (some t) hp.of_cons

lemma dedupLoop_keep_all_aux : ∀ (xs : List Entry) (m : ℚ),
    (∀ e ∈ xs, e.ts.isSome) → List.Pairwise entryGapOk xs →
    (∀ e ∈ xs.head?, DUP_GAP_SECONDS ≤ tsv e - m) →
    dedupLoop (some m) xs = xs
  | [], _, _, _, _ => rfl
  | e :: rest, m, hall, hc, hh => by
    obtain ⟨t, hts⟩ := Option.isSome_iff_exists.mp (hall e (List.mem_cons_self e rest))
    have hgap : DUP_GAP_SECONDS ≤ t - m := by
      have := hh e (by simp)
      rwa [tsv_eq_of_ts e t hts] at this
    rw [dedupLoop_cons_some _ e rest t hts]
    rw [if_pos (by simpa [keepOk] using hgap)]
    congr 1
    refine dedupLoop_keep_all_aux rest t
      (fun x hx => hall x (List.mem_cons_of_mem e hx)) hc.of_cons ?_
    intro y hy
    have := (List.pairwise_cons.mp hc).1 y (List.mem_of_mem_head? hy)
    rwa [entryGapOk, tsv_eq_of_ts e t hts] at this

lemma dedupLoop_keep_all (xs : List Entry)
    (hall : ∀ e ∈ xs, e.ts.isSome) (hc : List.Pairwise entryGapOk xs) :
    dedupLoop none xs = xs := by
  cases xs with
  | nil => rfl
  | cons e rest =>
    obtain ⟨t, hts⟩ := Option.isSome_iff_exists.mp (hall e (List.mem_cons_self e rest))
    rw [dedupLoop_cons_some none e rest t hts, if_pos (by simp [keepOk])]
    congr 1
    refine dedupLoop_keep_all_aux rest t
      (fun x hx => hall x (List.mem_cons_of_mem e hx)) hc.of_cons ?_
    intro y hy
    have := (List.pairwise_cons.mp hc).1 y (List.mem_of_mem_head? hy)
    rwa [entryGapOk, tsv_eq_of_ts e t hts] at this

/-- Claim C9: when any entry of the timeline lacks a parseable timestamp,
the `sorted` key function of `trim_data` raises and the handler returns the
input list unchanged, so neither deduplication nor the retention cap is
applied. -/
theorem C9_invalid_timestamp_returns_input (data : List Entry) (e : Entry)
    (he : e ∈ data) (hts : e.ts = none) : trim_data data = data := by
  refine trim_data_of_invalid data (List.ne_nil_of_mem he) ?_
  rw [List.all_eq_false]
  exact ⟨e, he, by simp [hts]⟩

/-- An entry with no parseable timestamp, for concrete instantiations. -/
def badEntry : Entry := ⟨none, none, 7⟩

/-- Witness for C9: a concrete three-entry timeline with one unparseable
timestamp is returned unchanged, although its parseable entries are only
30 seconds apart. -/
theorem C9_witness :
    trim_data [badEntry, entry0, entry30] = [badEntry, entry0, entry30] :=
  C9_invalid_timestamp_returns_input [badEntry, entry0, entry30] badEntry
    (by simp) rfl

/-- Claim C3: the health classifier is a pure function of the five window
statistics (it is a Lean function, so identical inputs give identical
results by definition); it returns `STATUS_HEALTHY` exactly when all five
inclusive comparisons hold, so a statistic exactly equal to its threshold
still permits `HEALTHY`, and it returns `STATUS_UNHEALTHY` exactly
otherwise. -/
theorem C3_health_classifier_iff (avg_eff avg_adj error_rate std_dev_eff std_dev_adj
    latency_threshold error_rate_threshold deviation_threshold : ℚ) :
    (health_status avg_eff avg_adj error_rate std_dev_eff std_dev_adj
        latency_threshold error_rate_threshold deviation_threshold = STATUS_HEALTHY ↔
      avg_eff ≤ latency_threshold ∧ avg_adj ≤ latency_threshold ∧
        error_rate ≤ error_rate_threshold ∧ std_dev_eff ≤ deviation_threshold ∧
        std_dev_adj ≤ deviation_threshold) ∧
    (health_status avg_eff avg_adj error_rate std_dev_eff std_dev_adj
        latency_threshold error_rate_threshold deviation_threshold = STATUS_UNHEALTHY ↔
      ¬(avg_eff ≤ latency_threshold ∧ avg_adj ≤ latency_threshold ∧
        error_rate ≤ error_rate_threshold ∧ std_dev_eff ≤ deviation_threshold ∧
        std_dev_adj ≤ deviation_threshold)) := by
  unfold health_status STATUS_HEALTHY STATUS_UNHEALTHY
  constructor
  · split <;> simp_all
  · split <;> simp_all

/-- Claim C6: for every probe outcome, the effective latency is the measured
wall-clock duration of the attempt; the adjusted latency equals the
effective latency when the status code is 200 and the configured request
timeout otherwise; and a transport failure yields a null status code, an
error flag, and an adjusted latency equal to the timeout. -/
theorem C6_probe_outcome (o : ProbeOutcome) (elapsed request_timeout : ℚ) :
    (probeResult o elapsed request_timeout).effective_latency = elapsed ∧
    (probeResult o elapsed request_timeout).adjusted_latency =
      (if (probeResult o elapsed request_timeout).status_code = some 200 then
        (probeResult o elapsed request_timeout).effective_latency
      else request_timeout) ∧
    probeResult ProbeOutcome.failure elapsed request_timeout =
      ⟨true, elapsed, request_timeout, none⟩ := by
  refine ⟨?_, ?_, rfl⟩ <;>
    cases o with
    | response c =>
      by_cases hc : c = 200 <;> simp [probeResult, hc]
    | failure => simp [probeResult]

/-! Helper lemmas about `cleanup_old_data`. -/

lemma cleanup_old_data_length_le {α : Type} (l : List α) (m : Nat) :
    (cleanup_old_data l m).length ≤ m ∨ cleanup_old_data l m = l ∧ l.length ≤ m := by
  unfold cleanup_old_data
  split
  · left
    rw [List.length_drop]
    omega
  · right
    exact ⟨rfl, by omega⟩

lemma cleanup_old_data_length_le' {α : Type} (l : List α) (m : Nat) :
    (cleanup_old_data l m).length ≤ m := by
  rcases cleanup_old_data_length_le l m with h | ⟨he, hl⟩
  · exact h
  · rw [he]
    exact hl

lemma cleanup_old_data_of_exceed {α : Type} (l : List α) (m : Nat) (h : m < l.length) :
    cleanup_old_data l m = l.drop (l.length - m) ∧
      (cleanup_old_data l m).length = m := by
  unfold cleanup_old_data
  rw [if_pos h]
  exact ⟨rfl, by rw [List.length_drop]; omega⟩

/-- Claim C7: after every tick's append-and-trim step none of the four
parallel sample buffers exceeds `MAX_HISTORY_SIZE` (3 x 240 = 720 entries),
and whenever the append makes a buffer exceed that cap, the buffer is
trimmed back to exactly the cap by discarding the oldest entries (a `drop`
of the front, keeping the most recent ones). -/
theorem C7_buffer_cap (b : Buffers) (s : ProbeSample) (probe_interval : Nat) :
    ((appendAndTrim b s probe_interval).errors.length ≤ MAX_HISTORY_SIZE ∧
      (appendAndTrim b s probe_interval).effective_latencies.length ≤ MAX_HISTORY_SIZE ∧
      (appendAndTrim b s probe_interval).adjusted_latencies.length ≤ MAX_HISTORY_SIZE ∧
      (appendAndTrim b s probe_interval).response_status_codes.length ≤ MAX_HISTORY_SIZE) ∧
    (MAX_HISTORY_SIZE < (b.errors ++ List.replicate probe_interval s.error).length →
      (appendAndTrim b s probe_interval).errors =
        (b.errors ++ List.replicate probe_interval s.error).drop
          ((b.errors ++ List.replicate probe_interval s.error).length - MAX_HISTORY_SIZE) ∧
      (appendAndTrim b s probe_interval).errors.length = MAX_HISTORY_SIZE) ∧
    (MAX_HISTORY_SIZE <
        (b.effective_latencies ++ List.replicate probe_interval s.effective_latency).length →
      (appendAndTrim b s probe_interval).effective_latencies =
        (b.effective_latencies ++ List.replicate probe_interval s.effective_latency).drop
          ((b.effective_latencies ++
            List.replicate probe_interval s.effective_latency).length - MAX_HISTORY_SIZE) ∧
      (appendAndTrim b s probe_interval).effective_latencies.length = MAX_HISTORY_SIZE) ∧
    (MAX_HISTORY_SIZE <
        (b.adjusted_latencies ++ List.replicate probe_interval s.adjusted_latency).length →
      (appendAndTrim b s probe_interval).adjusted_latencies =
        (b.adjusted_latencies ++ List.replicate probe_interval s.adjusted_latency).drop
          ((b.adjusted_latencies ++
            List.replicate probe_interval s.adjusted_latency).length - MAX_HISTORY_SIZE) ∧
      (appendAndTrim b s probe_interval).adjusted_latencies.length = MAX_HISTORY_SIZE) ∧
    (MAX_HISTORY_SIZE <
        (b.response_status_codes ++ List.replicate probe_interval s.status_code).length →
      (appendAndTrim b s probe_interval).response_status_codes =
        (b.response_status_codes ++ List.replicate probe_interval s.status_code).drop
          ((b.response_status_codes ++
            List.replicate probe_interval s.status_code).length - MAX_HISTORY_SIZE) ∧
      (appendAndTrim b s probe_interval).response_status_codes.length = MAX_HISTORY_SIZE) := by
  refine ⟨⟨?_, ?_, ?_, ?_⟩, fun h => ?_, fun h => ?_, fun h => ?_, fun h => ?_⟩ <;>
    first
      | exact cleanup_old_data_length_le' _ _
      | exact cleanup_old_data_of_exceed _ _ h

/-- A buffer state whose error buffer is already at the hard cap. -/
def bigBuffers : Buffers := ⟨List.replicate 720 true, [], [], []⟩

/-- A concrete probe sample for witnesses. -/
def sample0 : ProbeSample := ⟨false, 0, 0, none⟩

/-- Witness for C7: appending one probe value to a full error buffer makes
it exceed the cap and it is trimmed back to exactly `MAX_HISTORY_SIZE`. -/
theorem C7_buffer_cap_witness :
    (appendAndTrim bigBuffers sample0 1).errors.length ≤ MAX_HISTORY_SIZE ∧
    (appendAndTrim bigBuffers sample0 1).errors =
      (bigBuffers.errors ++ List.replicate 1 sample0.error).drop
        ((bigBuffers.errors ++ List.replicate 1 sample0.error).length - MAX_HISTORY_SIZE) ∧
    (appendAndTrim bigBuffers sample0 1).errors.length = MAX_HISTORY_SIZE := by
  have h := C7_buffer_cap bigBuffers sample0 1
  refine ⟨h.1.1, h.2.1 ?_⟩
  simp only [bigBuffers, sample0, List.length_append, List.length_replicate,
    MAX_HISTORY_SIZE, SAMPLE_SIZE_SECONDS]
  norm_num

/-- Claim C8: the renderer is total and returns an image of the fixed
dimensions `RESULTS_COUNT_MINUTES x 200` for every input; the `except`
branch produces the blank gray `placeholderImage` of the same dimensions
rather than propagating an error; and an empty timeline renders to the
full-size all-gray image (every pixel has the gray palette index 0). -/
theorem C8_renderer_fixed_size_and_gray (data_sorted : List Entry) :
    (create_graphical_representation data_sorted).width = RESULTS_COUNT_MINUTES ∧
    (create_graphical_representation data_sorted).height = 200 ∧
    placeholderImage.width = RESULTS_COUNT_MINUTES ∧
    placeholderImage.height = 200 ∧
    (∀ x y : Nat, (create_graphical_representation []).pix x y = 0) := by
  refine ⟨rfl, rfl, rfl, rfl, fun x y => ?_⟩
  simp only [create_graphical_representation, dateTicks, dateTicksAux, plotColumnColor,
    List.reverse_nil, List.get?, List.not_mem_nil, false_and, if_false]
  split <;> rfl

/-! Helper lemmas for the plotting stage of the renderer. -/

lemma plotColumnColor_eq_on_suffix (data : List Entry) (x : Nat) :
    plotColumnColor data x = plotColumnColor (data.drop (data.length - WIDTH)) x := by
  unfold plotColumnColor
  by_cases hx : x < WIDTH
  · rw [if_pos hx, if_pos hx]
    rw [List.reverse_drop]
    by_cases hi : WIDTH - 1 - x < (data.length - (data.length - WIDTH))
    · rw [List.get?_take hi]
    · have h1 : data.reverse.length ≤ WIDTH - 1 - x ∨
          (data.length - (data.length - WIDTH)) ≤ WIDTH - 1 - x := by
        right
        omega
      have hnone1 : (data.reverse.take (data.length - (data.length - WIDTH))).get?
          (WIDTH - 1 - x) = none := by
        rw [List.get?_eq_none]
        rw [List.length_take, List.length_reverse]
        omega
      have hnone2 : data.reverse.get? (WIDTH - 1 - x) = none := by
        rw [List.get?_eq_none, List.length_reverse]
        omega
      rw [hnone1, hnone2]
  · rw [if_neg hx, if_neg hx]

/-- Claim C10: the plotting stage colors a column for exactly the
`WIDTH` most recent entries: the `i`-th most recent entry (for `i < WIDTH`)
is drawn in column `WIDTH - i - 1`, so the most recent entry is rightmost;
entries older than the `WIDTH` most recent ones do not affect any column;
and a drawn column is green (index 1) when the entry's healthy field is 1,
red (index 2) when it is 0, and gray (index 0) when the field is missing or
not convertible to an integer. -/
theorem C10_plot_columns :
    (∀ (data : List Entry) (i : Nat) (item : Entry), i < WIDTH →
        (data.reverse).get? i = some item →
        plotColumnColor data (WIDTH - 1 - i) = entryColor item) ∧
    (∀ (data : List Entry) (x : Nat),
        plotColumnColor data x = plotColumnColor (data.drop (data.length - WIDTH)) x) ∧
    (∀ item : Entry,
        (item.healthy = some 1 → entryColor item = 1) ∧
        (item.healthy = some 0 → entryColor item = 2) ∧
        (item.healthy = none → entryColor item = 0)) := by
  refine ⟨?_, plotColumnColor_eq_on_suffix, ?_⟩
  · intro data i item hi hitem
    unfold plotColumnColor
    rw [if_pos (by omega)]
    have hidx : WIDTH - 1 - (WIDTH - 1 - i) = i := by omega
    rw [hidx, hitem]
  · intro item
    refine ⟨fun h => ?_, fun h => ?_, fun h => ?_⟩ <;>
      simp [entryColor, h, STATUS_HEALTHY, STATUS_UNHEALTHY]

/-- An entry flagged healthy, for concrete instantiations. -/
def greenEntry : Entry := ⟨some 120, some 1, 3⟩

/-- An entry flagged unhealthy, for concrete instantiations. -/
def redEntry : Entry := ⟨some 180, some 0, 4⟩

/-- Witness for C10: in a two-entry timeline the most recent entry (an
unhealthy one) is drawn in the rightmost column with the red index. -/
theorem C10_plot_columns_witness :
    plotColumnColor [greenEntry, redEntry] (WIDTH - 1 - 0) = entryColor redEntry :=
  C10_plot_columns.1 [greenEntry, redEntry] 0 redEntry
    (by norm_num [WIDTH, RESULTS_COUNT_MINUTES]) (by simp)

/-- Counterexample to claim C1: on the timeline with entries at t = 0 s,
t = 30 s and t = 65 s, `trim_data` keeps only the entry at t = 0 s — the
entry at t = 65 s is dropped because its gap is measured against the
previous entry at t = 30 s (35 s < 59.99 s), not against the previously
kept entry at t = 0 s (65 s). The claim predicts `{t=0s, t=65s}`. -/
theorem C1_counterexample :
    trim_data [entry0, entry30, entry65] = [entry0] ∧
    trim_data [entry0, entry30, entry65] ≠ [entry0, entry65] := by
  have h : trim_data [entry0, entry30, entry65] = [entry0] := by
    norm_num [trim_data, dedupLoop, keepOk, tsv, tsLe, DUP_GAP_SECONDS, RESULTS_COUNT_MINUTES,
      List.insertionSort, List.orderedInsert, entry0, entry30, entry65]
  exact ⟨h, by rw [h]; simp⟩

/-- Claim C1 as amended: the compaction loop keeps an entry exactly when it
is the first (parseable) entry or its timestamp is at least 59.99 s after
the immediately preceding entry of the timestamp-sorted sequence — whether
or not that preceding entry was itself kept, since `last_timestamp` is
updated at every entry; consequently, for the timeline with entries at
t = 0 s, 30 s, 65 s, `trim_data` returns only the entry at t = 0 s. -/
theorem C1_amended_gap_from_previous_entry :
    (∀ (last : Option ℚ) (e : Entry) (t : ℚ) (rest : List Entry), e.ts = some t →
        dedupLoop last (e :: rest) =
          (if keepOk last t then [e] else []) ++ dedupLoop (some t) rest) ∧
    (∀ t : ℚ, keepOk none t = true) ∧
    (∀ l t : ℚ, keepOk (some l) t = true ↔ DUP_GAP_SECONDS ≤ t - l) ∧
    trim_data [entry0, entry30, entry65] = [entry0] := by
  refine ⟨?_, fun t => rfl, fun l t => by simp [keepOk], ?_⟩
  · intro last e t rest hts
    rw [dedupLoop_cons_some last e rest t hts]
    by_cases hk : keepOk last t
    · rw [if_pos hk, if_pos hk]
      rfl
    · rw [if_neg hk, if_neg hk]
      rfl
  · norm_num [trim_data, dedupLoop, keepOk, tsv, tsLe, DUP_GAP_SECONDS, RESULTS_COUNT_MINUTES,
      List.insertionSort, List.orderedInsert, entry0, entry30, entry65]

/-- Witness for C1 (amended): with `last_timestamp = 30` (set by the
dropped entry at t = 30 s), the entry at t = 65 s fails the 59.99 s test
against it and is dropped, although it is 65 s after the kept entry at
t = 0 s. -/
theorem C1_amended_witness :
    entry65.ts = some 65 ∧
    dedupLoop (some 30) [entry65] =
      (if keepOk (some 30) 65 then [entry65] else []) ++ dedupLoop (some 65) [] ∧
    keepOk (some 30) 65 = false :=
  ⟨rfl, C1_amended_gap_from_previous_entry.1 (some 30) entry65 65 [] rfl,
    by norm_num [keepOk, DUP_GAP_SECONDS]⟩

/-! Helper lemmas to move the rational window statistics into `ℝ`. -/

lemma sq_dev_sum_cast (c : ℚ) (l : List ℚ) :
    (((l.map (fun x => (x - c) ^ 2)).sum : ℚ) : ℝ) =
      (l.map (fun x : ℚ => ((x : ℝ) - (c : ℝ)) ^ 2)).sum := by
  induction l with
  | nil => simp
  | cons a l ih =>
    simp only [List.map_cons, List.sum_cons, Rat.cast_add]
    rw [ih]
    push_cast
    ring

lemma mean_cast (xs : List ℚ) :
    ((mean xs : ℚ) : ℝ) = ((xs.sum : ℚ) : ℝ) / (xs.length : ℝ) := by
  unfold mean
  push_cast
  ring

lemma sqDevSum_cast (xs : List ℚ) :
    ((sqDevSum xs : ℚ) : ℝ) =
      (xs.map (fun x : ℚ => ((x : ℝ) - ((xs.sum : ℚ) : ℝ) / (xs.length : ℝ)) ^ 2)).sum := by
  unfold sqDevSum
  rw [sq_dev_sum_cast (mean xs) xs]
  simp only [mean_cast]

/-- Counterexample to claim C2: on the window whose valid latencies are
`[0, 2]`, the reported statistic is `stdev [0, 2] = sqrt 2` (the sample
standard deviation, with Bessel's `n - 1` denominator, as computed by
`statistics.stdev`), while the population standard deviation of the window
is `1`; the two differ, so the reported statistic is not the population
standard deviation. -/
theorem C2_counterexample : reportedStdDev [0, 2] ≠ popStdDevSpec [0, 2] := by
  have h1 : reportedStdDev [0, 2] = Real.sqrt 2 := by
    unfold reportedStdDev
    rw [if_pos (by norm_num)]
    congr 1
    norm_num [stdevSq, sqDevSum, mean]
  have h2 : popStdDevSpec [0, 2] = 1 := by
    unfold popStdDevSpec
    norm_num
  rw [h1, h2]
  intro hEq
  have h3 : Real.sqrt 2 ^ 2 = 2 := Real.sq_sqrt (by norm_num)
  rw [hEq] at h3
  norm_num at h3

/-- Claim C2 as amended: the reported standard-deviation statistic equals
the sample standard deviation (Bessel's `n - 1` denominator) of the valid
latencies in the window — `std_dev_eff` and `std_dev_adj` are both computed
by this same function on their respective latency lists — and it equals
exactly 0 whenever the window holds fewer than two valid samples, never an
undefined value. -/
theorem C2_amended_sample_stddev :
    (∀ xs : List ℚ, reportedStdDev xs = sampleStdDevSpec xs) ∧
    (∀ xs : List ℚ, xs.length < 2 → reportedStdDev xs = 0) := by
  have main : ∀ xs : List ℚ, reportedStdDev xs = sampleStdDevSpec xs := by
    intro xs
    unfold reportedStdDev sampleStdDevSpec
    by_cases h : 1 < xs.length
    · rw [if_pos h, if_neg (by omega)]
      congr 1
      unfold stdevSq
      rw [Rat.cast_div, sqDevSum_cast]
      push_cast
      ring
    · rw [if_neg h, if_pos (by omega)]
  refine ⟨main, fun xs h => ?_⟩
  rw [main xs]
  unfold sampleStdDevSpec
  rw [if_pos h]

/-- Witness for C2 (amended): a window with a single valid sample reports a
standard deviation of exactly 0. -/
theorem C2_amended_witness :
    ([(5 : ℚ)].length < 2) ∧ reportedStdDev [(5 : ℚ)] = 0 :=
  ⟨by norm_num, C2_amended_sample_stddev.2 [(5 : ℚ)] (by norm_num)⟩


/-! Structural properties of the output of `trim_data` on fully parseable
timelines, shared by the idempotence and the invariant claims. The pairwise
gap order `entryGapOk` is transitive (gaps only grow along a list whose
consecutive gaps are at least 59.99 s), so `List.Pairwise entryGapOk` is
equivalent to the consecutive-entries statement `List.Chain' entryGapOk`. -/

instance : IsTrans Entry entryGapOk :=
  ⟨fun a b c hab hbc => by
    rw [entryGapOk] at hab hbc ⊢
    have hpos : (0 : ℚ) < DUP_GAP_SECONDS := by norm_num [DUP_GAP_SECONDS]
    linarith⟩

lemma keep_cap_props (l : List Entry) (hmem : ∀ e ∈ l, e.ts.isSome = true)
    (hpair : List.Pairwise tsLe l) (hgap : List.Pairwise entryGapOk l) :
    (∀ e ∈ (if RESULTS_COUNT_MINUTES < l.length then
        l.drop (l.length - RESULTS_COUNT_MINUTES) else l), e.ts.isSome = true) ∧
    List.Pairwise tsLe (if RESULTS_COUNT_MINUTES < l.length then
        l.drop (l.length - RESULTS_COUNT_MINUTES) else l) ∧
    List.Pairwise entryGapOk (if RESULTS_COUNT_MINUTES < l.length then
        l.drop (l.length - RESULTS_COUNT_MINUTES) else l) ∧
    (if RESULTS_COUNT_MINUTES < l.length then
        l.drop (l.length - RESULTS_COUNT_MINUTES) else l).length ≤ RESULTS_COUNT_MINUTES := by
  split
  · rename_i hgt
    refine ⟨fun e he => hmem e (List.drop_subset _ _ he),
      hpair.sublist (List.drop_sublist _ _), hgap.sublist (List.drop_sublist _ _), ?_⟩
    rw [List.length_drop]
    omega
  · rename_i hle
    exact ⟨hmem, hpair, hgap, by omega⟩

lemma trim_props (data : List Entry) (hall : data.all (fun e => e.ts.isSome) = true) :
    (∀ e ∈ trim_data data, e.ts.isSome = true) ∧
    List.Pairwise tsLe (trim_data data) ∧
    List.Pairwise entryGapOk (trim_data data) ∧
    (trim_data data).length ≤ RESULTS_COUNT_MINUTES := by
  rw [trim_data_of_valid data hall]
  have hsorted : List.Pairwise tsLe (List.insertionSort tsLe data) :=
    List.sorted_insertionSort tsLe data
  have hsub : List.Sublist (dedupLoop none (List.insertionSort tsLe data))
      (List.insertionSort tsLe data) := dedupLoop_sublist none _
  refine keep_cap_props _ ?_ (hsorted.sublist hsub)
    (List.chain'_iff_pairwise.mp (dedupLoop_chain _ none hsorted))
  intro e he
  have h1 : e ∈ List.insertionSort tsLe data := hsub.subset he
  have h2 : e ∈ data := (List.perm_insertionSort tsLe data).subset h1
  exact List.all_eq_true.mp hall e h2

/-- Claim C4: the trim/dedup compaction is idempotent: re-trimming the
output of `trim_data` yields the same output, for every timeline, including
those with unparseable timestamps (which are returned unchanged by both
applications). -/
theorem C4_trim_idempotent (data : List Entry) :
    trim_data (trim_data data) = trim_data data := by
  by_cases hall : data.all (fun e => e.ts.isSome) = true
  · obtain ⟨h1, h2, h3, h4⟩ := trim_props data hall
    have hallO : (trim_data data).all (fun e => e.ts.isSome) = true :=
      List.all_eq_true.mpr h1
    rw [trim_data_of_valid (trim_data data) hallO]
    have hsortO : List.insertionSort tsLe (trim_data data) = trim_data data :=
      List.Sorted.insertionSort_eq h2
    rw [hsortO, dedupLoop_keep_all (trim_data data) h1 h3, if_neg (by omega)]
  · by_cases hne : data = []
    · subst hne
      rw [trim_data_nil, trim_data_nil]
    · have hfalse : data.all (fun e => e.ts.isSome) = false := by
        cases hb : data.all (fun e => e.ts.isSome) with
        | true => exact absurd hb hall
        | false => rfl
      rw [trim_data_of_invalid data hne hfalse]
      exact trim_data_of_invalid data hne hfalse

/-- Strictly-increasing-time order on entries. -/
def tsLt (a b : Entry) : Prop := tsv a < tsv b

instance : DecidableRel tsLt := fun a b => inferInstanceAs (Decidable (tsv a < tsv b))

/-- A timeline headed by an entry with no parseable timestamp, whose
parseable entries are only 30 seconds apart. -/
def badTimeline : List Entry := [⟨none, none, 9⟩, entry0, entry30]

/-- Counterexample to claim C5: `trim_data` returns `badTimeline` unchanged
(an entry's timestamp does not parse, so the sort raises and the handler
returns the input), and the result contains consecutive entries at t = 0 s
and t = 30 s, less than 59.99 seconds apart — so the claimed spacing
invariant does not hold for every timeline. -/
theorem C5_counterexample :
    trim_data badTimeline = badTimeline ∧
    ¬ List.Pairwise entryGapOk (trim_data badTimeline) := by
  have h : trim_data badTimeline = badTimeline :=
    trim_data_of_invalid _ (by simp [badTimeline]) (by simp [badTimeline])
  refine ⟨h, ?_⟩
  rw [h]
  intro hp
  have h2 : entryGapOk entry0 entry30 :=
    (List.pairwise_cons.mp (List.pairwise_cons.mp hp).2).1 entry30 (by simp)
  norm_num [entryGapOk, tsv, entry0, entry30, DUP_GAP_SECONDS] at h2

/-- A timeline of 4321 one-minute-spaced entries. -/
def minuteTimeline : List Entry :=
  (List.range 4321).map (fun i : ℕ => ⟨some (60 * (i : ℚ)), none, i⟩)

/-- Claim C5 as amended: for every timeline whose entries all have parseable
timestamps, the entries of `trim_data`'s output are pairwise (in particular
consecutively) at least 59.99 seconds apart, hence strictly increasing in
time, and the output length is at most `RESULTS_COUNT_MINUTES` (4320);
moreover the timeline of 4321 one-minute-spaced entries trims to exactly its
4320 most recent entries. For timelines with an unparseable timestamp the
input is returned unchanged and the invariant can fail (see the
counterexample). -/
theorem C5_amended_invariants :
    (∀ data : List Entry, (∀ e ∈ data, e.ts.isSome = true) →
        List.Pairwise entryGapOk (trim_data data) ∧
        List.Pairwise tsLt (trim_data data) ∧
        (trim_data data).length ≤ RESULTS_COUNT_MINUTES) ∧
    trim_data minuteTimeline = minuteTimeline.drop 1 := by
  constructor
  · intro data hall
    obtain ⟨h1, h2, h3, h4⟩ := trim_props data (List.all_eq_true.mpr hall)
    refine ⟨h3, ?_, h4⟩
    refine h3.imp ?_
    intro a b hab
    have hpos : (0 : ℚ) < DUP_GAP_SECONDS := by norm_num [DUP_GAP_SECONDS]
    rw [entryGapOk] at hab
    rw [tsLt]
    linarith
  · have hall : minuteTimeline.all (fun e => e.ts.isSome) = true := by
      rw [List.all_eq_true]
      intro e he
      simp only [minuteTimeline, List.mem_map] at he
      obtain ⟨i, _, rfl⟩ := he
      rfl
    have hsorted : List.Pairwise tsLe minuteTimeline := by
      unfold minuteTimeline
      rw [List.pairwise_map]
      refine (List.pairwise_lt_range 4321).imp ?_
      intro i j hij
      show tsv _ ≤ tsv _
      simp only [tsv, Option.getD_some]
      have : (i : ℚ) ≤ (j : ℚ) := by exact_mod_cast hij.le
      linarith
    have hgapP : List.Pairwise entryGapOk minuteTimeline := by
      unfold minuteTimeline
      rw [List.pairwise_map]
      refine (List.pairwise_lt_range 4321).imp ?_
      intro i j hij
      show DUP_GAP_SECONDS ≤ tsv _ - tsv _
      simp only [tsv, Option.getD_some]
      rw [DUP_GAP_SECONDS]
      have h1 : (i : ℚ) + 1 ≤ (j : ℚ) := by exact_mod_cast hij
      linarith
    rw [trim_data_of_valid _ hall, List.Sorted.insertionSort_eq hsorted,
      dedupLoop_keep_all _ (List.all_eq_true.mp hall) hgapP]
    have hlen : minuteTimeline.length = 4321 := by
      rw [minuteTimeline, List.length_map, List.length_range]
    rw [if_pos (by rw [hlen]; norm_num [RESULTS_COUNT_MINUTES]), hlen]
    norm_num [RESULTS_COUNT_MINUTES]

/-- Witness for C5 (amended): on the concrete two-entry timeline with
entries at t = 0 s and t = 65 s (both parseable), the trimmed output
satisfies the gap, monotonicity and length invariants. -/
theorem C5_amended_witness :
    List.Pairwise entryGapOk (trim_data [entry0, entry65]) ∧
    List.Pairwise tsLt (trim_data [entry0, entry65]) ∧
    (trim_data [entry0, entry65]).length ≤ RESULTS_COUNT_MINUTES :=
  C5_amended_invariants.1 [entry0, entry65]
    (by intro e he
        rcases List.mem_cons.mp he with rfl | he'
        · rfl
        · rcases List.mem_cons.mp he' with rfl | h'
          · rfl
          · simp at h')

end MonitorStddev
